import Mathlib

/-!
# Blinky-serial firmware (`src/apps/blinky_serial/main_serial.c`)

A shallow embedding of the two interrupt callbacks `timer_cb` and `uart_rx_cb`,
of `init_timer`, and of the rate table `g_possible_periods`, followed by the
properties proved about them.

Conventions of the embedding:

* The four globals `g_ctr`, `g_set_period`, `g_idx` (all `int16_t`) and
  `g_state_led` (`uint8_t`) are fields of `State`, holding mathematical
  integers; every place where the C code converts or may overflow applies
  `int16` / `uint16` explicitly.
* The three drivers the callbacks talk to are not part of the source file.
  What the callbacks do to them is recorded in three more fields of `State`:
  the data register of `OUTPUT_PORT`, the callback registered with `GPTD1`,
  and the bytes written to `UARTD1`.
* A received byte `ch` (`uint8_t`) is a natural number; the callback only
  compares it with character constants.
-/

namespace BlinkySerial

/-! ## Constants -/

/-- The mask of the LED pin inside the output port: `#define MSK_LED 0X20`. -/
def MSK_LED : Nat := 0x20

/-- The value of `g_state_led` when the LED is blinking: `#define STATE_LED_ON 1`. -/
def STATE_LED_ON : Nat := 1

/-- The value of `g_state_led` when the LED is off: `#define STATE_LED_OFF 0`. -/
def STATE_LED_OFF : Nat := 0

/-- The rate table `static const int16_t g_possible_periods[] PROGMEM`. -/
def g_possible_periods : List Int := [16000, 8000, 5333, 4000, 2666, 2000, 1600]

/-- The size in bytes of one `int16_t`. -/
def SIZEOF_INT16 : Nat := 2

/-- The number of table entries:
`#define NBR_PERIODS sizeof(g_possible_periods)/sizeof(g_possible_periods[0])`,
an unsigned (`size_t`) value. -/
def NBR_PERIODS : Nat := (g_possible_periods.length * SIZEOF_INT16) / SIZEOF_INT16

/-! ## Machine integers -/

/-- Conversion to `int16_t`: the two's-complement value of the low 16 bits. -/
def int16 (x : Int) : Int := (x + 32768) % 65536 - 32768

/-- Conversion to a 16-bit unsigned integer (`unsigned int` / `size_t` on the AVR). -/
def uint16 (x : Int) : Int := x % 65536

/-! ## Characters of the serial protocol -/

/-- The character `'+'`. -/
def CH_PLUS : Nat := 43
/-- The character `'-'`. -/
def CH_MINUS : Nat := 45
/-- The character `'0'`. -/
def CH_ZERO : Nat := 48
/-- The character `'\x0a'` (line feed, also written `'\n'`). -/
def CH_LF : Nat := 10
/-- The character `'\x0d'` (carriage return). -/
def CH_CR : Nat := 13
/-- The character `'?'`. -/
def CH_QUESTION : Nat := 63
/-- The character `'O'`. -/
def CH_O : Nat := 79
/-- The character `'K'`. -/
def CH_K : Nat := 75

/-- The bytes of the reply `"OK\n"`. -/
def REPLY_OK : List Nat := [CH_O, CH_K, CH_LF]

/-- The bytes of the reply `"?\n"`. -/
def REPLY_ERR : List Nat := [CH_QUESTION, CH_LF]

/-! ## State -/

/-- The callbacks that the program hands to `gpt_start_notification`; the
program has only one, `timer_cb`. -/
inductive GptCallback where
  | timer_cb
  deriving DecidableEq, Repr

/-- The globals of `main_serial.c` together with the part of the three
peripherals that the callbacks act on. -/
structure State where
  /-- The global `static int16_t g_ctr`: the tick countdown. -/
  g_ctr : Int
  /-- The global `static int16_t g_set_period`: the cached period. -/
  g_set_period : Int
  /-- The global `static int16_t g_idx`: the index into the rate table. -/
  g_idx : Int
  /-- The global `static uint8_t g_state_led`. -/
  g_state_led : Nat
  /-- The data register of `OUTPUT_PORT` (one bit per pin). -/
  port : Nat
  /-- The callback registered for the tick notification of `GPTD1`, if any. -/
  notification : Option GptCallback
  /-- The bytes written to `UARTD1` so far, oldest first. -/
  uart_tx : List Nat
  deriving DecidableEq, Repr

/-! ## Drivers -/

/-- Modelled from the spec: the GPIO driver (`gpio.h`) is missing from the
sources; the spec describes it as "read/set/clear/toggle by bitmask".
`gpio_set_group` drives high every pin of the port selected by the mask. -/
def gpio_set_group (port mask : Nat) : Nat := port ||| mask

/-- Modelled from the spec: the GPIO driver (`gpio.h`) is missing from the
sources. `gpio_clear_group` drives low every pin of the 8-bit port selected by
the mask. -/
def gpio_clear_group (port mask : Nat) : Nat := port &&& (0xFF ^^^ mask)

/-- Modelled from the spec: the GPIO driver (`gpio.h`) is missing from the
sources. `gpio_toggle_group` inverts every pin of the port selected by the
mask. -/
def gpio_toggle_group (port mask : Nat) : Nat := port ^^^ mask

/-- Modelled from the spec: the timer driver (`timer.h`) is missing from the
sources; the spec describes `gpt_start_notification` as registering the tick
callback. -/
def gpt_start_notification (s : State) (cb : GptCallback) : State :=
  { s with notification := some cb }

/-- Modelled from the spec: the timer driver (`timer.h`) is missing from the
sources; the spec describes `gpt_stop_notification` as unregistering the tick
callback (notifications stop). -/
def gpt_stop_notification (s : State) : State :=
  { s with notification := none }

/-- Modelled from the spec: the UART driver (`uart.h`) is missing from the
sources; `uart_writechar` sends one byte, which is appended to what the port
has transmitted. -/
def uart_writechar (s : State) (c : Nat) : State :=
  { s with uart_tx := s.uart_tx ++ [c] }

/-- The 16-bit word that `pgm_read_word (g_possible_periods + i)` reads from
program memory. Inside the table it is the bit pattern of entry `i`; outside
the table it is whatever the flash holds there, given by `rom`. -/
def pgm_read_word (rom : Int → Int) (i : Int) : Int :=
  if 0 ≤ i ∧ i < g_possible_periods.length then
    uint16 (g_possible_periods.getD i.toNat 0)
  else
    uint16 (rom i)

/-- The level of the LED pin: the bit of the output port selected by `MSK_LED`. -/
def led_pin (s : State) : Bool := decide (s.port &&& MSK_LED ≠ 0)

/-! ## The program -/

/-- The timer callback `timer_cb`:
`if (--g_ctr <= 0) { gpio_toggle_group(OUTPUT_PORT, MSK_LED); g_ctr = g_set_period; }`.
The decrement is a 16-bit one. -/
def timer_cb (s : State) : State :=
  let s1 := { s with g_ctr := int16 (s.g_ctr - 1) }
  if s1.g_ctr ≤ 0 then
    let s2 := { s1 with port := gpio_toggle_group s1.port MSK_LED }
    { s2 with g_ctr := s2.g_set_period }
  else
    s1

/-- The initialisation `init_timer`: after starting the timer it sets
`g_idx = 0`, loads `g_set_period` from the first table entry, sets
`g_state_led = STATE_LED_ON` and registers `timer_cb`. It assigns neither
`g_ctr` nor the LED pin. -/
def init_timer (rom : Int → Int) (s : State) : State :=
  let s1 := { s with g_idx := 0 }
  let s2 := { s1 with g_set_period := int16 (pgm_read_word rom 0) }
  let s3 := { s2 with g_state_led := STATE_LED_ON }
  gpt_start_notification s3 GptCallback.timer_cb

/-- The serial callback `uart_rx_cb`, branch by branch as in the source. The
comparison `g_idx < NBR_PERIODS - 1` is between an `int16_t` and a `size_t`,
hence unsigned; `g_idx > 0` is signed. -/
def uart_rx_cb (rom : Int → Int) (s : State) (ch : Nat) : State :=
  let ok (t : State) : State :=
    uart_writechar (uart_writechar (uart_writechar t CH_O) CH_K) CH_LF
  if ch = CH_PLUS then
    let s1 :=
      if s.g_state_led = STATE_LED_OFF then
        let a := { s with g_state_led := STATE_LED_ON }
        let b := { a with port := gpio_set_group a.port MSK_LED }
        gpt_start_notification b GptCallback.timer_cb
      else s
    let s2 :=
      if uint16 s1.g_idx < ((NBR_PERIODS - 1 : Nat) : Int) then
        let i := int16 (s1.g_idx + 1)
        let v := int16 (pgm_read_word rom i)
        { s1 with g_idx := i, g_set_period := v, g_ctr := v }
      else s1
    ok s2
  else if ch = CH_MINUS then
    let s1 :=
      if s.g_state_led = STATE_LED_OFF then
        let a := { s with g_state_led := STATE_LED_ON }
        let b := { a with port := gpio_set_group a.port MSK_LED }
        gpt_start_notification b GptCallback.timer_cb
      else s
    let s2 :=
      if s1.g_idx > 0 then
        let i := int16 (s1.g_idx - 1)
        let v := int16 (pgm_read_word rom i)
        { s1 with g_idx := i, g_set_period := v, g_ctr := v }
      else s1
    ok s2
  else if ch = CH_ZERO then
    let a := gpt_stop_notification s
    let b := { a with port := gpio_clear_group a.port MSK_LED }
    ok { b with g_state_led := STATE_LED_OFF }
  else if ch = CH_LF ∨ ch = CH_CR then
    s
  else
    uart_writechar (uart_writechar s CH_QUESTION) CH_LF

/-! ## Delivery of interrupts -/

/-- One interrupt: a timer tick, or a byte received on the serial port. -/
inductive Event where
  | tick
  | byte (ch : Nat)
  deriving DecidableEq, Repr

/-- The handler that runs for one event. -/
def step (rom : Int → Int) (s : State) : Event → State
  | Event.tick => timer_cb s
  | Event.byte ch => uart_rx_cb rom s ch

/-- The state after a finite sequence of handler calls, first to last. -/
def run (rom : Int → Int) (s : State) (evs : List Event) : State :=
  evs.foldl (step rom) s

/-- The event sequence of `n` consecutive receptions of the byte `ch`. -/
def presses (ch : Nat) (n : Nat) : List Event := List.replicate n (Event.byte ch)

/-- The invariant of the table index and the cached period: the index is
within the table and the period is the entry it selects. -/
def Inv (s : State) : Prop :=
  0 ≤ s.g_idx ∧ s.g_idx ≤ 6 ∧ g_possible_periods[s.g_idx.toNat]? = some s.g_set_period

/-- The event sequence of `k` consecutive timer ticks. -/
def ticks (k : Nat) : List Event := List.replicate k Event.tick

/-- Whether a tick taken in state `s` changes the level of the LED pin. -/
def tick_toggles (s : State) : Bool := led_pin (timer_cb s) != led_pin s

/-- The number of ticks, among the first `k` ticks taken from `s`, that change
the level of the LED pin. Tick number `j + 1` is the one taken after `j` ticks. -/
def toggle_count (rom : Int → Int) (s : State) (k : Nat) : Nat :=
  ((List.range k).filter (fun j => tick_toggles (run rom s (ticks j)))).length

/-- Modelled from the spec: the timer driver (`timer.h`) is missing from the
sources; on a timer overflow it calls the registered notification callback, and
does nothing when none is registered. -/
def gpt_overflow (s : State) : State :=
  match s.notification with
  | some GptCallback.timer_cb => timer_cb s
  | none => s

/-- The invariant of the countdown: it lies between 0 and the period. -/
def CtrInv (s : State) : Prop :=
  Inv s ∧ 0 ≤ s.g_ctr ∧ s.g_ctr ≤ s.g_set_period

/-- The invariant of the LED flag: it is on exactly when `timer_cb` is
registered, and off exactly when nothing is. -/
def LedInv (s : State) : Prop :=
  (s.g_state_led = STATE_LED_ON ∧ s.notification = some GptCallback.timer_cb) ∨
  (s.g_state_led = STATE_LED_OFF ∧ s.notification = none)

/-! ## Example states -/

/-- The character `'z'`, a byte that is no command. -/
def CH_LOWER_Z : Nat := 122

/-- A flash image whose words outside the table are all zero (for examples). -/
def rom0 : Int → Int := fun _ => 0

/-- The zero-initialised globals at program start, with an idle output port. -/
def boot : State :=
  { g_ctr := 0, g_set_period := 0, g_idx := 0, g_state_led := 0,
    port := 0, notification := none, uart_tx := [] }

/-- The state after `init_timer` and two `'+'`: index 2, period 5333. -/
def at_index_two : State :=
  run rom0 (init_timer rom0 boot) [Event.byte CH_PLUS, Event.byte CH_PLUS]

/-- The state after `init_timer` and then `'0'`: LED off, index 0. -/
def switched_off : State := uart_rx_cb rom0 (init_timer rom0 boot) CH_ZERO

example : (run rom0 (init_timer rom0 boot) [Event.byte 43, Event.byte 43]).g_idx = 2 := by decide
example : (run rom0 (init_timer rom0 boot) [Event.byte 43, Event.byte 43]).g_set_period = 5333 := by decide
example : (run rom0 (init_timer rom0 boot) [Event.byte 43, Event.tick]).g_ctr = 7999 := by decide
example : (run rom0 (init_timer rom0 boot) [Event.byte 48, Event.byte 97]).uart_tx = [79, 75, 10, 63, 10] := by decide

/-- A state whose countdown holds the least `int16_t` value. -/
def countdown_at_int16_min : State :=
  { g_ctr := -32768, g_set_period := 16000, g_idx := 0, g_state_led := 1,
    port := 0, notification := some GptCallback.timer_cb, uart_tx := [] }

/-- A running state at index 0 whose countdown has just been reloaded. -/
def freshly_reloaded : State :=
  { g_ctr := 16000, g_set_period := 16000, g_idx := 0, g_state_led := 1,
    port := 0, notification := some GptCallback.timer_cb, uart_tx := [] }

/-- The state after `init_timer`, six `'+'` and then `'0'`: LED off, index 6. -/
def switched_off_at_last : State :=
  uart_rx_cb rom0 (run rom0 (init_timer rom0 boot) (presses CH_PLUS 6)) CH_ZERO

example : timer_cb countdown_at_int16_min = { countdown_at_int16_min with g_ctr := 32767 } := by decide
example : (run rom0 (init_timer rom0 boot) [Event.tick]).g_ctr = 16000 := by decide
example : led_pin (run rom0 (init_timer rom0 boot) [Event.tick]) = true := by decide
example : (run rom0 (init_timer rom0 boot) [Event.byte 48, Event.byte 122, Event.byte 43]).g_idx = 1 := by decide
example : switched_off_at_last.g_idx = 6 ∧ switched_off_at_last.g_state_led = 0 := by decide

/-! ## Shared lemmas -/

/-- Inside the table, the word read from program memory and converted back to
`int16_t` is the table entry. -/
theorem read_table_entry (rom : Int → Int) (i : Int) (h0 : 0 ≤ i) (h6 : i ≤ 6) :
    g_possible_periods[i.toNat]? = some (int16 (pgm_read_word rom i)) := by
  interval_cases i <;> rfl

/-- The unsigned test `g_idx < NBR_PERIODS - 1` on an index within the table. -/
theorem uint16_lt_last (i : Int) (h0 : 0 ≤ i) (h6 : i ≤ 6) :
    uint16 i < ((NBR_PERIODS - 1 : Nat) : Int) ↔ i < 6 := by
  have h : ((NBR_PERIODS - 1 : Nat) : Int) = 6 := by decide
  rw [h]; unfold uint16; omega

theorem inv_init_timer (rom : Int → Int) (s : State) : Inv (init_timer rom s) := by
  refine ⟨?_, ?_, ?_⟩ <;> simp [init_timer, gpt_start_notification]
  rfl

theorem inv_timer_cb (s : State) (h : Inv s) : Inv (timer_cb s) := by
  unfold timer_cb
  dsimp only
  split <;> exact h

/-- What `'+'` does to the index, the period and the countdown below the last index. -/
theorem plus_below_last (rom : Int → Int) (s : State) (h0 : 0 ≤ s.g_idx) (h6 : s.g_idx < 6) :
    (uart_rx_cb rom s CH_PLUS).g_idx = s.g_idx + 1 ∧
    (uart_rx_cb rom s CH_PLUS).g_set_period = int16 (pgm_read_word rom (s.g_idx + 1)) ∧
    (uart_rx_cb rom s CH_PLUS).g_ctr = int16 (pgm_read_word rom (s.g_idx + 1)) := by
  have hlt : uint16 s.g_idx < ((NBR_PERIODS - 1 : Nat) : Int) :=
    (uint16_lt_last s.g_idx h0 (by omega)).2 h6
  have hi : int16 (s.g_idx + 1) = s.g_idx + 1 := by unfold int16; omega
  by_cases hled : s.g_state_led = STATE_LED_OFF <;>
    simp [uart_rx_cb, uart_writechar, gpt_start_notification, hled, hlt, hi]

/-- At the last index `'+'` changes neither the index, the period nor the countdown. -/
theorem plus_at_last (rom : Int → Int) (s : State) (h : s.g_idx = 6) :
    (uart_rx_cb rom s CH_PLUS).g_idx = s.g_idx ∧
    (uart_rx_cb rom s CH_PLUS).g_set_period = s.g_set_period ∧
    (uart_rx_cb rom s CH_PLUS).g_ctr = s.g_ctr := by
  have hlt : ¬ uint16 s.g_idx < ((NBR_PERIODS - 1 : Nat) : Int) := by
    rw [uint16_lt_last s.g_idx (by omega) (by omega)]; omega
  by_cases hled : s.g_state_led = STATE_LED_OFF <;>
    simp [uart_rx_cb, uart_writechar, gpt_start_notification, hled, hlt]

/-- What `'-'` does to the index, the period and the countdown above index 0. -/
theorem minus_above_first (rom : Int → Int) (s : State) (h0 : 0 < s.g_idx) (h6 : s.g_idx ≤ 6) :
    (uart_rx_cb rom s CH_MINUS).g_idx = s.g_idx - 1 ∧
    (uart_rx_cb rom s CH_MINUS).g_set_period = int16 (pgm_read_word rom (s.g_idx - 1)) ∧
    (uart_rx_cb rom s CH_MINUS).g_ctr = int16 (pgm_read_word rom (s.g_idx - 1)) := by
  have hi : int16 (s.g_idx - 1) = s.g_idx - 1 := by unfold int16; omega
  have hne : CH_MINUS ≠ CH_PLUS := by decide
  by_cases hled : s.g_state_led = STATE_LED_OFF <;>
    simp [uart_rx_cb, uart_writechar, gpt_start_notification, hled, h0, hi, hne]

/-- At index 0 `'-'` changes neither the index, the period nor the countdown. -/
theorem minus_at_first (rom : Int → Int) (s : State) (h : s.g_idx = 0) :
    (uart_rx_cb rom s CH_MINUS).g_idx = s.g_idx ∧
    (uart_rx_cb rom s CH_MINUS).g_set_period = s.g_set_period ∧
    (uart_rx_cb rom s CH_MINUS).g_ctr = s.g_ctr := by
  have hne : CH_MINUS ≠ CH_PLUS := by decide
  by_cases hled : s.g_state_led = STATE_LED_OFF <;>
    simp [uart_rx_cb, uart_writechar, gpt_start_notification, hled, h, hne]

/-- The bytes `uart_rx_cb` sends are decided by the received byte alone. -/
theorem tx_uart_rx_cb (rom : Int → Int) (s : State) (ch : Nat) :
    (uart_rx_cb rom s ch).uart_tx = s.uart_tx ++
      (if ch = CH_PLUS ∨ ch = CH_MINUS ∨ ch = CH_ZERO then REPLY_OK
       else if ch = CH_LF ∨ ch = CH_CR then [] else REPLY_ERR) := by
  unfold uart_rx_cb
  simp only [CH_PLUS, CH_MINUS, CH_ZERO, CH_LF, CH_CR, CH_O, CH_K, CH_QUESTION, REPLY_OK, REPLY_ERR]
  by_cases h1 : ch = 43
  · subst h1
    simp only [if_true, true_or]
    split_ifs <;> simp [uart_writechar, gpt_start_notification]
  by_cases h2 : ch = 45
  · subst h2
    simp only [if_true, true_or, or_true]
    split_ifs <;> simp_all [uart_writechar, gpt_start_notification]
  by_cases h3 : ch = 48
  · subst h3
    simp [uart_writechar, gpt_stop_notification]
  by_cases h4 : ch = 10 ∨ ch = 13
  · simp [h1, h2, h3, h4]
  · simp [h1, h2, h3, h4, uart_writechar]

/-- The whole effect of `'0'`. -/
theorem rx_zero (rom : Int → Int) (s : State) :
    uart_rx_cb rom s CH_ZERO =
      { s with notification := none, port := gpio_clear_group s.port MSK_LED,
               g_state_led := STATE_LED_OFF, uart_tx := s.uart_tx ++ REPLY_OK } := by
  simp [uart_rx_cb, uart_writechar, gpt_stop_notification, REPLY_OK, CH_PLUS, CH_MINUS, CH_ZERO]

/-- The whole effect of a byte that is no command: at most a reply is sent. -/
theorem rx_other (rom : Int → Int) (s : State) (ch : Nat)
    (hp : ch ≠ CH_PLUS) (hm : ch ≠ CH_MINUS) (hz : ch ≠ CH_ZERO) :
    uart_rx_cb rom s ch =
      { s with uart_tx := s.uart_tx ++ (if ch = CH_LF ∨ ch = CH_CR then [] else REPLY_ERR) } := by
  unfold uart_rx_cb
  by_cases h : ch = CH_LF ∨ ch = CH_CR <;>
    simp [hp, hm, hz, h, uart_writechar, REPLY_ERR]

/-- With the LED off, `'+'` and `'-'` switch it on again: flag, pin and notification. -/
theorem rx_rate_when_off (rom : Int → Int) (s : State) (ch : Nat)
    (hch : ch = CH_PLUS ∨ ch = CH_MINUS) (hoff : s.g_state_led = STATE_LED_OFF) :
    (uart_rx_cb rom s ch).g_state_led = STATE_LED_ON ∧
    (uart_rx_cb rom s ch).port = gpio_set_group s.port MSK_LED ∧
    (uart_rx_cb rom s ch).notification = some GptCallback.timer_cb := by
  have hne : CH_MINUS ≠ CH_PLUS := by decide
  unfold uart_rx_cb
  rcases hch with h | h <;> subst h <;>
    simp only [hne, hoff, if_true, if_false] <;>
    split_ifs <;> simp [uart_writechar, gpt_start_notification]

/-- With the LED on, `'+'` and `'-'` leave flag, pin and notification alone. -/
theorem rx_rate_when_on (rom : Int → Int) (s : State) (ch : Nat)
    (hch : ch = CH_PLUS ∨ ch = CH_MINUS) (hon : s.g_state_led ≠ STATE_LED_OFF) :
    (uart_rx_cb rom s ch).g_state_led = s.g_state_led ∧
    (uart_rx_cb rom s ch).port = s.port ∧
    (uart_rx_cb rom s ch).notification = s.notification := by
  have hne : CH_MINUS ≠ CH_PLUS := by decide
  unfold uart_rx_cb
  rcases hch with h | h <;> subst h <;>
    simp only [hne, hon, if_true, if_false] <;>
    split_ifs <;> simp [uart_writechar]

/-- Setting the LED mask drives the LED pin high. -/
theorem led_bit_after_set (p : Nat) : gpio_set_group p MSK_LED &&& MSK_LED ≠ 0 := by
  intro h
  have hb := congrArg (fun n => Nat.testBit n 5) h
  have h5 : Nat.testBit 32 5 = true := by decide
  simp [gpio_set_group, MSK_LED, Nat.testBit_land, Nat.testBit_lor, h5] at hb

/-- Clearing the LED mask drives the LED pin low. -/
theorem led_bit_after_clear (p : Nat) : gpio_clear_group p MSK_LED &&& MSK_LED = 0 := by
  unfold gpio_clear_group MSK_LED
  rw [Nat.land_assoc]
  have h : (0xFF ^^^ 0x20) &&& 0x20 = 0 := by decide
  rw [h, Nat.and_zero]

/-- The serial callback keeps the invariant, whatever the byte. -/
theorem inv_uart_rx_cb (rom : Int → Int) (s : State) (ch : Nat) (h : Inv s) :
    Inv (uart_rx_cb rom s ch) := by
  obtain ⟨h0, h6, hp⟩ := h
  by_cases h1 : ch = CH_PLUS
  · subst h1
    by_cases hlt : s.g_idx < 6
    · obtain ⟨e1, e2, _⟩ := plus_below_last rom s h0 hlt
      refine ⟨by omega, by omega, ?_⟩
      rw [e1, e2]
      exact read_table_entry rom (s.g_idx + 1) (by omega) (by omega)
    · obtain ⟨e1, e2, _⟩ := plus_at_last rom s (by omega)
      refine ⟨by omega, by omega, ?_⟩
      rw [e1, e2]; exact hp
  by_cases h2 : ch = CH_MINUS
  · subst h2
    by_cases hgt : 0 < s.g_idx
    · obtain ⟨e1, e2, _⟩ := minus_above_first rom s hgt h6
      refine ⟨by omega, by omega, ?_⟩
      rw [e1, e2]
      exact read_table_entry rom (s.g_idx - 1) (by omega) (by omega)
    · obtain ⟨e1, e2, _⟩ := minus_at_first rom s (by omega)
      refine ⟨by omega, by omega, ?_⟩
      rw [e1, e2]; exact hp
  by_cases h3 : ch = CH_ZERO
  · subst h3
    rw [rx_zero]
    exact ⟨h0, h6, hp⟩
  · rw [rx_other rom s ch h1 h2 h3]
    exact ⟨h0, h6, hp⟩

/-- Every handler keeps the invariant. -/
theorem inv_step (rom : Int → Int) (s : State) (e : Event) (h : Inv s) : Inv (step rom s e) := by
  cases e with
  | tick => exact inv_timer_cb s h
  | byte ch => exact inv_uart_rx_cb rom s ch h

/-- The invariant holds after any sequence of handler calls. -/
theorem inv_run (rom : Int → Int) (evs : List Event) :
    ∀ s : State, Inv s → Inv (run rom s evs) := by
  induction evs with
  | nil => intro s h; exact h
  | cons e es ih =>
    intro s h
    exact ih (step rom s e) (inv_step rom s e h)

/-- One more press runs the serial callback once more, after the others. -/
theorem run_presses_succ (rom : Int → Int) (s : State) (ch : Nat) (n : Nat) :
    run rom s (presses ch (n + 1)) = uart_rx_cb rom (run rom s (presses ch n)) ch := by
  unfold presses run
  rw [List.replicate_succ' n (Event.byte ch), List.foldl_append]
  rfl

/-- The index after `n` presses of `'+'`, from an index within the table. -/
theorem idx_after_plus_presses (rom : Int → Int) (s : State)
    (h0 : 0 ≤ s.g_idx) (h6 : s.g_idx ≤ 6) (n : Nat) :
    (run rom s (presses CH_PLUS n)).g_idx = min (s.g_idx + n) 6 := by
  induction n with
  | zero =>
    have : run rom s (presses CH_PLUS 0) = s := rfl
    rw [this]; simp only [Nat.cast_zero]; omega
  | succ n ih =>
    rw [run_presses_succ]
    by_cases hlt : (run rom s (presses CH_PLUS n)).g_idx < 6
    · rw [(plus_below_last rom _ (by omega) hlt).1, ih]
      push_cast; omega
    · rw [(plus_at_last rom _ (by omega)).1, ih]
      push_cast; omega

/-- The index after `n` presses of `'-'`, from an index within the table. -/
theorem idx_after_minus_presses (rom : Int → Int) (s : State)
    (h0 : 0 ≤ s.g_idx) (h6 : s.g_idx ≤ 6) (n : Nat) :
    (run rom s (presses CH_MINUS n)).g_idx = max (s.g_idx - n) 0 := by
  induction n with
  | zero =>
    have : run rom s (presses CH_MINUS 0) = s := rfl
    rw [this]; simp only [Nat.cast_zero]; omega
  | succ n ih =>
    rw [run_presses_succ]
    by_cases hgt : 0 < (run rom s (presses CH_MINUS n)).g_idx
    · rw [(minus_above_first rom _ hgt (by omega)).1, ih]
      push_cast; omega
    · rw [(minus_at_first rom _ (by omega)).1, ih]
      push_cast; omega

/-- Toggling the LED mask inverts the LED pin. -/
theorem led_bit_after_toggle (p : Nat) :
    gpio_toggle_group p MSK_LED &&& MSK_LED ≠ 0 ↔ p &&& MSK_LED = 0 := by
  have h32 : MSK_LED = 2 ^ 5 := by decide
  unfold gpio_toggle_group
  rw [h32, Nat.and_two_pow, Nat.and_two_pow, Nat.testBit_xor]
  have h5 : Nat.testBit (2 ^ 5) 5 = true := by decide
  rw [h5]
  cases p.testBit 5 <;> simp

/-- Clearing the LED mask a second time changes nothing. -/
theorem gpio_clear_group_idem (p : Nat) :
    gpio_clear_group (gpio_clear_group p MSK_LED) MSK_LED = gpio_clear_group p MSK_LED := by
  unfold gpio_clear_group
  rw [Nat.land_assoc, Nat.and_self]

/-- A tick whose 16-bit decrement reaches zero or less toggles the LED and
reloads the countdown; the rest of the state stays. -/
theorem timer_cb_reload (s : State) (h : int16 (s.g_ctr - 1) ≤ 0) :
    timer_cb s =
      { s with port := gpio_toggle_group s.port MSK_LED, g_ctr := s.g_set_period } := by
  simp [timer_cb, h]

/-- A tick whose 16-bit decrement stays positive only stores the decrement. -/
theorem timer_cb_count (s : State) (h : 0 < int16 (s.g_ctr - 1)) :
    timer_cb s = { s with g_ctr := int16 (s.g_ctr - 1) } := by
  have h2 : ¬ int16 (s.g_ctr - 1) ≤ 0 := by omega
  simp [timer_cb, h2]

/-- The tick callback writes only the countdown and the port. -/
theorem timer_cb_frame (s : State) :
    (timer_cb s).g_set_period = s.g_set_period ∧ (timer_cb s).g_idx = s.g_idx ∧
    (timer_cb s).g_state_led = s.g_state_led ∧ (timer_cb s).notification = s.notification ∧
    (timer_cb s).uart_tx = s.uart_tx := by
  unfold timer_cb
  dsimp only
  split <;> exact ⟨rfl, rfl, rfl, rfl, rfl⟩

/-- Whether a tick toggles the LED pin, read off the 16-bit decrement. -/
theorem tick_toggles_iff (s : State) :
    tick_toggles s = true ↔ int16 (s.g_ctr - 1) ≤ 0 := by
  unfold tick_toggles
  by_cases h : int16 (s.g_ctr - 1) ≤ 0
  · rw [timer_cb_reload s h]
    simp only [h, iff_true]
    have ht := led_bit_after_toggle s.port
    by_cases hb : s.port &&& MSK_LED = 0
    · have := ht.2 hb
      simp [led_pin, hb, this]
    · have : ¬ gpio_toggle_group s.port MSK_LED &&& MSK_LED ≠ 0 := fun hc => hb (ht.1 hc)
      simp only [ne_eq, not_not] at this
      simp [led_pin, hb, this]
  · rw [timer_cb_count s (by omega)]
    simp [led_pin, h]

/-- Every table entry lies between 1600 and 16000. -/
theorem table_entry_bounds (i : Nat) (v : Int) (h : g_possible_periods[i]? = some v) :
    1600 ≤ v ∧ v ≤ 16000 := by
  have hmem : v ∈ g_possible_periods := List.getElem?_mem h
  have hall : ∀ x ∈ g_possible_periods, 1600 ≤ x ∧ x ≤ 16000 := by decide
  exact hall v hmem

/-- The period of a state that satisfies `Inv` is a table entry, hence between
1600 and 16000. -/
theorem inv_period_bounds (s : State) (h : Inv s) :
    1600 ≤ s.g_set_period ∧ s.g_set_period ≤ 16000 :=
  table_entry_bounds s.g_idx.toNat s.g_set_period h.2.2

/-- What the serial callback does to the countdown, whatever the byte: it
either leaves it and the period alone or sets it to the new period. -/
theorem ctr_after_uart_rx_cb (rom : Int → Int) (s : State) (ch : Nat) (h : Inv s) :
    ((uart_rx_cb rom s ch).g_ctr = s.g_ctr ∧
      (uart_rx_cb rom s ch).g_set_period = s.g_set_period) ∨
    (uart_rx_cb rom s ch).g_ctr = (uart_rx_cb rom s ch).g_set_period := by
  obtain ⟨h0, h6, _⟩ := h
  by_cases h1 : ch = CH_PLUS
  · subst h1
    by_cases hlt : s.g_idx < 6
    · obtain ⟨_, e2, e3⟩ := plus_below_last rom s h0 hlt
      right; rw [e2, e3]
    · obtain ⟨_, e2, e3⟩ := plus_at_last rom s (by omega)
      left; exact ⟨e3, e2⟩
  by_cases h2 : ch = CH_MINUS
  · subst h2
    by_cases hgt : 0 < s.g_idx
    · obtain ⟨_, e2, e3⟩ := minus_above_first rom s hgt h6
      right; rw [e2, e3]
    · obtain ⟨_, e2, e3⟩ := minus_at_first rom s (by omega)
      left; exact ⟨e3, e2⟩
  by_cases h3 : ch = CH_ZERO
  · subst h3
    rw [rx_zero]
    left; exact ⟨rfl, rfl⟩
  · rw [rx_other rom s ch h1 h2 h3]
    left; exact ⟨rfl, rfl⟩

theorem ctrinv_init_timer (rom : Int → Int) (s : State) (h : s.g_ctr = 0) :
    CtrInv (init_timer rom s) := by
  have hi := inv_init_timer rom s
  have hb := inv_period_bounds _ hi
  have hc : (init_timer rom s).g_ctr = s.g_ctr := rfl
  exact ⟨hi, by omega, by omega⟩

theorem ctrinv_timer_cb (s : State) (h : CtrInv s) :
    CtrInv (timer_cb s) ∧ 1 ≤ (timer_cb s).g_ctr := by
  obtain ⟨hi, h0, h1⟩ := h
  have hb := inv_period_bounds s hi
  have hd : int16 (s.g_ctr - 1) = s.g_ctr - 1 := by unfold int16; omega
  have hi2 := inv_timer_cb s hi
  by_cases hz : int16 (s.g_ctr - 1) ≤ 0
  · have e : (timer_cb s).g_ctr = s.g_set_period := by rw [timer_cb_reload s hz]
    have e2 := (timer_cb_frame s).1
    exact ⟨⟨hi2, by omega, by omega⟩, by omega⟩
  · have e : (timer_cb s).g_ctr = int16 (s.g_ctr - 1) := by rw [timer_cb_count s (by omega)]
    have e2 := (timer_cb_frame s).1
    exact ⟨⟨hi2, by omega, by omega⟩, by omega⟩

theorem ctrinv_uart_rx_cb (rom : Int → Int) (s : State) (ch : Nat) (h : CtrInv s) :
    CtrInv (uart_rx_cb rom s ch) ∧ (1 ≤ s.g_ctr → 1 ≤ (uart_rx_cb rom s ch).g_ctr) := by
  obtain ⟨hi, h0, h1⟩ := h
  have hi2 := inv_uart_rx_cb rom s ch hi
  have hb := inv_period_bounds _ hi2
  rcases ctr_after_uart_rx_cb rom s ch hi with ⟨e1, e2⟩ | e
  · exact ⟨⟨hi2, by omega, by omega⟩, by omega⟩
  · exact ⟨⟨hi2, by omega, by omega⟩, by omega⟩

/-- The countdown invariant holds after any sequence of handler calls, and once
a tick has run the countdown is at least 1. -/
theorem ctrinv_run (rom : Int → Int) (evs : List Event) :
    ∀ s : State, CtrInv s →
      CtrInv (run rom s evs) ∧
      ((1 ≤ s.g_ctr ∨ Event.tick ∈ evs) → 1 ≤ (run rom s evs).g_ctr) := by
  induction evs with
  | nil =>
    intro s h
    refine ⟨h, fun hp => ?_⟩
    rcases hp with hp | hp
    · exact hp
    · simp at hp
  | cons e es ih =>
    intro s h
    cases e with
    | tick =>
      obtain ⟨hc, hpos⟩ := ctrinv_timer_cb s h
      obtain ⟨r1, r2⟩ := ih (timer_cb s) hc
      exact ⟨r1, fun _ => r2 (Or.inl hpos)⟩
    | byte ch =>
      obtain ⟨hc, hpos⟩ := ctrinv_uart_rx_cb rom s ch h
      obtain ⟨r1, r2⟩ := ih (uart_rx_cb rom s ch) hc
      refine ⟨r1, fun hp => r2 ?_⟩
      rcases hp with hp | hp
      · exact Or.inl (hpos hp)
      · right
        simpa using hp

theorem ledinv_init_timer (rom : Int → Int) (s : State) : LedInv (init_timer rom s) :=
  Or.inl ⟨rfl, rfl⟩

theorem ledinv_step (rom : Int → Int) (s : State) (e : Event) (h : LedInv s) :
    LedInv (step rom s e) := by
  cases e with
  | tick =>
    obtain ⟨_, _, e3, e4, _⟩ := timer_cb_frame s
    unfold LedInv step
    rw [e3, e4]; exact h
  | byte ch =>
    have hstep : step rom s (Event.byte ch) = uart_rx_cb rom s ch := rfl
    rw [hstep]
    by_cases hr : ch = CH_PLUS ∨ ch = CH_MINUS
    · by_cases hoff : s.g_state_led = STATE_LED_OFF
      · obtain ⟨e1, _, e3⟩ := rx_rate_when_off rom s ch hr hoff
        exact Or.inl ⟨e1, e3⟩
      · obtain ⟨e1, _, e3⟩ := rx_rate_when_on rom s ch hr hoff
        unfold LedInv
        rw [e1, e3]; exact h
    · by_cases hz : ch = CH_ZERO
      · subst hz
        rw [rx_zero]
        exact Or.inr ⟨rfl, rfl⟩
      · rw [rx_other rom s ch (fun hc => hr (Or.inl hc)) (fun hc => hr (Or.inr hc)) hz]
        exact h

theorem ledinv_run (rom : Int → Int) (evs : List Event) :
    ∀ s : State, LedInv s → LedInv (run rom s evs) := by
  induction evs with
  | nil => intro s h; exact h
  | cons e es ih =>
    intro s h
    exact ih (step rom s e) (ledinv_step rom s e h)

/-- One more tick runs the timer callback once more, after the others. -/
theorem run_ticks_succ (rom : Int → Int) (s : State) (k : Nat) :
    run rom s (ticks (k + 1)) = timer_cb (run rom s (ticks k)) := by
  unfold ticks run
  rw [List.replicate_succ' k Event.tick, List.foldl_append]
  rfl

/-- Quotient and remainder of `k + 1` from those of `k`. -/
theorem succ_div_mod (k p : Nat) (hp : 0 < p) :
    (k % p + 1 = p ∧ (k + 1) % p = 0 ∧ (k + 1) / p = k / p + 1) ∨
    (k % p + 1 < p ∧ (k + 1) % p = k % p + 1 ∧ (k + 1) / p = k / p) := by
  have hdm := Nat.div_add_mod k p
  have hlt := Nat.mod_lt k hp
  by_cases h : k % p + 1 = p
  · left
    have hu : (k + 1) / p = k / p + 1 ∧ (k + 1) % p = 0 := by
      rw [Nat.div_mod_unique hp]
      refine ⟨?_, hp⟩
      rw [Nat.mul_succ]; omega
    exact ⟨h, hu.2, hu.1⟩
  · right
    have hu : (k + 1) / p = k / p ∧ (k + 1) % p = k % p + 1 := by
      rw [Nat.div_mod_unique hp]
      refine ⟨by omega, by omega⟩
    exact ⟨by omega, hu.2, hu.1⟩

/-- The countdown and the period after `k` ticks from a freshly reloaded
countdown. -/
theorem ctr_after_ticks (rom : Int → Int) (s : State) (p : Nat)
    (hp : 0 < p) (hp16 : p ≤ 32767)
    (hper : s.g_set_period = (p : Int)) (hctr : s.g_ctr = (p : Int)) (k : Nat) :
    (run rom s (ticks k)).g_ctr = (p : Int) - ((k % p : Nat) : Int) ∧
    (run rom s (ticks k)).g_set_period = (p : Int) := by
  induction k with
  | zero =>
    have : run rom s (ticks 0) = s := rfl
    rw [this, hper, hctr]
    simp
  | succ k ih =>
    obtain ⟨ic, ip⟩ := ih
    rw [run_ticks_succ]
    have hlt := Nat.mod_lt k hp
    have hd : int16 ((run rom s (ticks k)).g_ctr - 1) = (run rom s (ticks k)).g_ctr - 1 := by
      unfold int16; omega
    have hfr := (timer_cb_frame (run rom s (ticks k))).1
    refine ⟨?_, by rw [hfr, ip]⟩
    rcases succ_div_mod k p hp with ⟨h1, h2, _⟩ | ⟨h1, h2, _⟩
    · rw [timer_cb_reload _ (by omega), h2]
      simp [ip]
    · rw [timer_cb_count _ (by omega), h2]
      show int16 ((run rom s (ticks k)).g_ctr - 1) = _
      rw [hd, ic]
      push_cast; omega

/-- From a freshly reloaded countdown, tick number `k + 1` toggles the LED pin
exactly when `k + 1` is a multiple of the period. -/
theorem tick_toggles_after_ticks (rom : Int → Int) (s : State) (p : Nat)
    (hp : 0 < p) (hp16 : p ≤ 32767)
    (hper : s.g_set_period = (p : Int)) (hctr : s.g_ctr = (p : Int)) (k : Nat) :
    tick_toggles (run rom s (ticks k)) = true ↔ p ∣ k + 1 := by
  obtain ⟨ic, _⟩ := ctr_after_ticks rom s p hp hp16 hper hctr k
  have hlt := Nat.mod_lt k hp
  have hd : int16 ((run rom s (ticks k)).g_ctr - 1) = (run rom s (ticks k)).g_ctr - 1 := by
    unfold int16; omega
  rw [tick_toggles_iff, hd, Nat.dvd_iff_mod_eq_zero]
  rcases succ_div_mod k p hp with ⟨h1, h2, _⟩ | ⟨h1, h2, _⟩
  · constructor
    · intro _; exact h2
    · intro _; omega
  · constructor
    · intro h; omega
    · intro h; omega

/-- From a freshly reloaded countdown, the first `k` ticks toggle the LED pin
`k / p` times. -/
theorem toggle_count_after_ticks (rom : Int → Int) (s : State) (p : Nat)
    (hp : 0 < p) (hp16 : p ≤ 32767)
    (hper : s.g_set_period = (p : Int)) (hctr : s.g_ctr = (p : Int)) (k : Nat) :
    toggle_count rom s k = k / p := by
  induction k with
  | zero => simp [toggle_count]
  | succ k ih =>
    have hstep : toggle_count rom s (k + 1) =
        toggle_count rom s k + (if tick_toggles (run rom s (ticks k)) = true then 1 else 0) := by
      unfold toggle_count
      rw [List.range_succ, List.filter_append, List.length_append]
      by_cases ht : tick_toggles (run rom s (ticks k)) = true <;> simp [List.filter, ht]
    have hiff := tick_toggles_after_ticks rom s p hp hp16 hper hctr k
    rw [hstep, ih, Nat.succ_div]
    by_cases hdvd : p ∣ k + 1
    · simp [hdvd, hiff.2 hdvd]
    · have : ¬ tick_toggles (run rom s (ticks k)) = true := fun h => hdvd (hiff.1 h)
      simp [hdvd, this]

/-- Under `Inv`, the period is determined by the index. -/
theorem period_of_idx (s : State) (h : Inv s) (i : Nat) (v : Int)
    (hi : s.g_idx = (i : Int)) (hv : g_possible_periods[i]? = some v) :
    s.g_set_period = v := by
  have h3 := h.2.2
  rw [hi, Int.toNat_ofNat, hv] at h3
  exact (Option.some.inj h3).symm

/-- Each table entry is strictly larger than the word read one position later. -/
theorem next_entry_smaller (rom : Int → Int) (i : Int) (v : Int)
    (h0 : 0 ≤ i) (h6 : i < 6) (hv : g_possible_periods[i.toNat]? = some v) :
    int16 (pgm_read_word rom (i + 1)) < v := by
  have hn := read_table_entry rom (i + 1) (by omega) (by omega)
  interval_cases i <;>
    simp [g_possible_periods] at hv hn ⊢ <;>
    omega

/-- Each table entry is strictly smaller than the word read one position earlier. -/
theorem previous_entry_larger (rom : Int → Int) (i : Int) (v : Int)
    (h0 : 0 < i) (h6 : i ≤ 6) (hv : g_possible_periods[i.toNat]? = some v) :
    v < int16 (pgm_read_word rom (i - 1)) := by
  have hn := read_table_entry rom (i - 1) (by omega) (by omega)
  interval_cases i <;>
    simp [g_possible_periods] at hv hn ⊢ <;>
    omega

/-- A successful table lookup bounds the index. -/
theorem idx_le_of_lookup (i : Int) (v : Int)
    (hv : g_possible_periods[i.toNat]? = some v) : i ≤ 6 := by
  obtain ⟨hlt, _⟩ := List.getElem?_eq_some.1 hv
  have hlen : g_possible_periods.length = 7 := rfl
  omega

/-! ## Properties of the firmware -/

/-- C1: in every state reached from the state that `init_timer` establishes
(whatever the state before it) by any finite sequence of `timer_cb` and
`uart_rx_cb` calls with any bytes, the table index satisfies
`0 ≤ g_idx ≤ 6`. -/
theorem table_index_in_range (rom : Int → Int) (s0 : State) (evs : List Event) :
    0 ≤ (run rom (init_timer rom s0) evs).g_idx ∧
    (run rom (init_timer rom s0) evs).g_idx ≤ 6 :=
  have h := inv_run rom evs (init_timer rom s0) (inv_init_timer rom s0)
  ⟨h.1, h.2.1⟩

/-- C2: in every state reached from the state that `init_timer` establishes by
any finite sequence of `timer_cb` and `uart_rx_cb` calls, the cached period
`g_set_period` is the entry of `g_possible_periods` at position `g_idx` (a
position of the table: `g_idx` is not negative and the lookup succeeds). -/
theorem period_is_table_entry (rom : Int → Int) (s0 : State) (evs : List Event) :
    0 ≤ (run rom (init_timer rom s0) evs).g_idx ∧
    g_possible_periods[(run rom (init_timer rom s0) evs).g_idx.toNat]? =
      some (run rom (init_timer rom s0) evs).g_set_period :=
  have h := inv_run rom evs (init_timer rom s0) (inv_init_timer rom s0)
  ⟨h.1, h.2.2⟩

/-- C3: for every state with `0 ≤ g_idx ≤ 6`, the byte `'+'` gives: below
index 6 the index grows by one, the period becomes the table entry at the new
index and the countdown that same period; at index 6 the index, the period and
the countdown are unchanged. -/
theorem plus_effect (rom : Int → Int) (s : State) (h0 : 0 ≤ s.g_idx) (h6 : s.g_idx ≤ 6) :
    (s.g_idx < 6 →
      (uart_rx_cb rom s CH_PLUS).g_idx = s.g_idx + 1 ∧
      g_possible_periods[(uart_rx_cb rom s CH_PLUS).g_idx.toNat]? =
        some (uart_rx_cb rom s CH_PLUS).g_set_period ∧
      (uart_rx_cb rom s CH_PLUS).g_ctr = (uart_rx_cb rom s CH_PLUS).g_set_period) ∧
    (s.g_idx = 6 →
      (uart_rx_cb rom s CH_PLUS).g_idx = s.g_idx ∧
      (uart_rx_cb rom s CH_PLUS).g_set_period = s.g_set_period ∧
      (uart_rx_cb rom s CH_PLUS).g_ctr = s.g_ctr) := by
  refine ⟨fun hlt => ?_, fun heq => plus_at_last rom s heq⟩
  obtain ⟨e1, e2, e3⟩ := plus_below_last rom s h0 hlt
  refine ⟨e1, ?_, by rw [e3, e2]⟩
  rw [e1, e2]
  exact read_table_entry rom (s.g_idx + 1) (by omega) (by omega)

/-- C3 at the state right after `init_timer` on the zeroed globals (index 0,
below the last index): the hypotheses hold there and `'+'` acts as stated. -/
theorem plus_effect_witness :
    ((0 : Int) ≤ (init_timer rom0 boot).g_idx ∧ (init_timer rom0 boot).g_idx ≤ 6) ∧
    ((init_timer rom0 boot).g_idx < 6 →
      (uart_rx_cb rom0 (init_timer rom0 boot) CH_PLUS).g_idx = (init_timer rom0 boot).g_idx + 1 ∧
      g_possible_periods[(uart_rx_cb rom0 (init_timer rom0 boot) CH_PLUS).g_idx.toNat]? =
        some (uart_rx_cb rom0 (init_timer rom0 boot) CH_PLUS).g_set_period ∧
      (uart_rx_cb rom0 (init_timer rom0 boot) CH_PLUS).g_ctr =
        (uart_rx_cb rom0 (init_timer rom0 boot) CH_PLUS).g_set_period) ∧
    ((init_timer rom0 boot).g_idx = 6 →
      (uart_rx_cb rom0 (init_timer rom0 boot) CH_PLUS).g_idx = (init_timer rom0 boot).g_idx ∧
      (uart_rx_cb rom0 (init_timer rom0 boot) CH_PLUS).g_set_period =
        (init_timer rom0 boot).g_set_period ∧
      (uart_rx_cb rom0 (init_timer rom0 boot) CH_PLUS).g_ctr = (init_timer rom0 boot).g_ctr) :=
  ⟨⟨by decide, by decide⟩, plus_effect rom0 (init_timer rom0 boot) (by decide) (by decide)⟩

/-- C4: for every state with `0 ≤ g_idx ≤ 6`, the byte `'-'` gives: above
index 0 the index shrinks by one, the period becomes the table entry at the
new index and the countdown that same period; at index 0 the index, the period
and the countdown are unchanged. -/
theorem minus_effect (rom : Int → Int) (s : State) (h0 : 0 ≤ s.g_idx) (h6 : s.g_idx ≤ 6) :
    (s.g_idx > 0 →
      (uart_rx_cb rom s CH_MINUS).g_idx = s.g_idx - 1 ∧
      g_possible_periods[(uart_rx_cb rom s CH_MINUS).g_idx.toNat]? =
        some (uart_rx_cb rom s CH_MINUS).g_set_period ∧
      (uart_rx_cb rom s CH_MINUS).g_ctr = (uart_rx_cb rom s CH_MINUS).g_set_period) ∧
    (s.g_idx = 0 →
      (uart_rx_cb rom s CH_MINUS).g_idx = s.g_idx ∧
      (uart_rx_cb rom s CH_MINUS).g_set_period = s.g_set_period ∧
      (uart_rx_cb rom s CH_MINUS).g_ctr = s.g_ctr) := by
  refine ⟨fun hgt => ?_, fun heq => minus_at_first rom s heq⟩
  obtain ⟨e1, e2, e3⟩ := minus_above_first rom s hgt h6
  refine ⟨e1, ?_, by rw [e3, e2]⟩
  rw [e1, e2]
  exact read_table_entry rom (s.g_idx - 1) (by omega) (by omega)

/-- C4 at the state reached by two `'+'` after `init_timer` (index 2, above
index 0): the hypotheses hold there and `'-'` acts as stated. -/
theorem minus_effect_witness :
    ((0 : Int) ≤ at_index_two.g_idx ∧ at_index_two.g_idx ≤ 6) ∧
    (at_index_two.g_idx > 0 →
      (uart_rx_cb rom0 at_index_two CH_MINUS).g_idx = at_index_two.g_idx - 1 ∧
      g_possible_periods[(uart_rx_cb rom0 at_index_two CH_MINUS).g_idx.toNat]? =
        some (uart_rx_cb rom0 at_index_two CH_MINUS).g_set_period ∧
      (uart_rx_cb rom0 at_index_two CH_MINUS).g_ctr =
        (uart_rx_cb rom0 at_index_two CH_MINUS).g_set_period) ∧
    (at_index_two.g_idx = 0 →
      (uart_rx_cb rom0 at_index_two CH_MINUS).g_idx = at_index_two.g_idx ∧
      (uart_rx_cb rom0 at_index_two CH_MINUS).g_set_period = at_index_two.g_set_period ∧
      (uart_rx_cb rom0 at_index_two CH_MINUS).g_ctr = at_index_two.g_ctr) :=
  ⟨⟨by decide, by decide⟩, minus_effect rom0 at_index_two (by decide) (by decide)⟩

/-- C5: the reply of `uart_rx_cb` depends on the byte alone. For every state
and every byte, what the callback appends to the transmitted bytes is exactly
`"OK\n"` for `'+'`, `'-'` and `'0'`, nothing for `'\n'` and `'\r'`, and exactly
`"?\n"` for every other byte (in particular every other value in 0..255). -/
theorem reply_depends_on_byte (rom : Int → Int) (s : State) (ch : Nat) :
    (uart_rx_cb rom s ch).uart_tx = s.uart_tx ++
      (if ch = CH_PLUS ∨ ch = CH_MINUS ∨ ch = CH_ZERO then [CH_O, CH_K, CH_LF]
       else if ch = CH_LF ∨ ch = CH_CR then []
       else [CH_QUESTION, CH_LF]) :=
  tx_uart_rx_cb rom s ch

/-- C6: for every state and every byte other than `'+'`, `'-'` and `'0'` (the
line endings as well as every unrecognised byte), `uart_rx_cb` leaves the
countdown, the period, the table index, the LED flag, the output port (hence
the LED pin) and the notification registration unchanged. -/
theorem other_byte_no_mutation (rom : Int → Int) (s : State) (ch : Nat)
    (hp : ch ≠ CH_PLUS) (hm : ch ≠ CH_MINUS) (hz : ch ≠ CH_ZERO) :
    (uart_rx_cb rom s ch).g_ctr = s.g_ctr ∧
    (uart_rx_cb rom s ch).g_set_period = s.g_set_period ∧
    (uart_rx_cb rom s ch).g_idx = s.g_idx ∧
    (uart_rx_cb rom s ch).g_state_led = s.g_state_led ∧
    (uart_rx_cb rom s ch).port = s.port ∧
    led_pin (uart_rx_cb rom s ch) = led_pin s ∧
    (uart_rx_cb rom s ch).notification = s.notification := by
  rw [rx_other rom s ch hp hm hz]
  exact ⟨rfl, rfl, rfl, rfl, rfl, rfl, rfl⟩

/-- C6 at the byte `'a'` (97) in the state with index 2. -/
theorem other_byte_no_mutation_witness :
    (97 ≠ CH_PLUS ∧ 97 ≠ CH_MINUS ∧ 97 ≠ CH_ZERO) ∧
    ((uart_rx_cb rom0 at_index_two 97).g_ctr = at_index_two.g_ctr ∧
    (uart_rx_cb rom0 at_index_two 97).g_set_period = at_index_two.g_set_period ∧
    (uart_rx_cb rom0 at_index_two 97).g_idx = at_index_two.g_idx ∧
    (uart_rx_cb rom0 at_index_two 97).g_state_led = at_index_two.g_state_led ∧
    (uart_rx_cb rom0 at_index_two 97).port = at_index_two.port ∧
    led_pin (uart_rx_cb rom0 at_index_two 97) = led_pin at_index_two ∧
    (uart_rx_cb rom0 at_index_two 97).notification = at_index_two.notification) :=
  ⟨by decide, other_byte_no_mutation rom0 at_index_two 97 (by decide) (by decide) (by decide)⟩

/-- C7: from a state with index 0, for every `n`, after `n` consecutive `'+'`
bytes the index is `min n 6` (one more per press up to 6, then 6 for good),
and each of the `n` presses sends exactly `"OK\n"`. -/
theorem plus_presses_saturate (rom : Int → Int) (s : State) (h : s.g_idx = 0) (n : Nat) :
    (run rom s (presses CH_PLUS n)).g_idx = min (n : Int) 6 ∧
    ∀ k, k < n →
      (run rom s (presses CH_PLUS (k + 1))).uart_tx =
        (run rom s (presses CH_PLUS k)).uart_tx ++ [CH_O, CH_K, CH_LF] := by
  constructor
  · rw [idx_after_plus_presses rom s (by omega) (by omega) n, h, zero_add]
  · intro k _
    rw [run_presses_succ, tx_uart_rx_cb]
    simp [REPLY_OK]

/-- C7 at the state right after `init_timer`, for eight presses: the index
ends at 6. -/
theorem plus_presses_saturate_witness :
    (init_timer rom0 boot).g_idx = 0 ∧
    ((run rom0 (init_timer rom0 boot) (presses CH_PLUS 8)).g_idx = min ((8 : Nat) : Int) 6 ∧
     ∀ k, k < 8 →
      (run rom0 (init_timer rom0 boot) (presses CH_PLUS (k + 1))).uart_tx =
        (run rom0 (init_timer rom0 boot) (presses CH_PLUS k)).uart_tx ++ [CH_O, CH_K, CH_LF]) :=
  ⟨by decide, plus_presses_saturate rom0 (init_timer rom0 boot) (by decide) 8⟩

/-- C8: from a state with index `i`, `0 ≤ i ≤ 6`, for every `n`, after `n`
consecutive `'-'` bytes the index is `max (i - n) 0` (one less per press down
to 0, then 0 for good), and each of the `n` presses sends exactly `"OK\n"`. -/
theorem minus_presses_saturate (rom : Int → Int) (s : State)
    (h0 : 0 ≤ s.g_idx) (h6 : s.g_idx ≤ 6) (n : Nat) :
    (run rom s (presses CH_MINUS n)).g_idx = max (s.g_idx - n) 0 ∧
    ∀ k, k < n →
      (run rom s (presses CH_MINUS (k + 1))).uart_tx =
        (run rom s (presses CH_MINUS k)).uart_tx ++ [CH_O, CH_K, CH_LF] := by
  constructor
  · exact idx_after_minus_presses rom s h0 h6 n
  · intro k _
    rw [run_presses_succ, tx_uart_rx_cb]
    simp [REPLY_OK]

/-- C8 at the state with index 2, for three presses: the index ends at 0. -/
theorem minus_presses_saturate_witness :
    ((0 : Int) ≤ at_index_two.g_idx ∧ at_index_two.g_idx ≤ 6) ∧
    ((run rom0 at_index_two (presses CH_MINUS 3)).g_idx =
        max (at_index_two.g_idx - ((3 : Nat) : Int)) 0 ∧
     ∀ k, k < 3 →
      (run rom0 at_index_two (presses CH_MINUS (k + 1))).uart_tx =
        (run rom0 at_index_two (presses CH_MINUS k)).uart_tx ++ [CH_O, CH_K, CH_LF]) :=
  ⟨⟨by decide, by decide⟩, minus_presses_saturate rom0 at_index_two (by decide) (by decide) 3⟩

/-- C9: for every state, the byte `'0'` unregisters the tick notification,
drives the LED pin low and sets the LED flag to off, and leaves the table
index, the period and the countdown unchanged. -/
theorem zero_effect (rom : Int → Int) (s : State) :
    (uart_rx_cb rom s CH_ZERO).notification = none ∧
    led_pin (uart_rx_cb rom s CH_ZERO) = false ∧
    (uart_rx_cb rom s CH_ZERO).g_state_led = STATE_LED_OFF ∧
    (uart_rx_cb rom s CH_ZERO).g_idx = s.g_idx ∧
    (uart_rx_cb rom s CH_ZERO).g_set_period = s.g_set_period ∧
    (uart_rx_cb rom s CH_ZERO).g_ctr = s.g_ctr := by
  rw [rx_zero]
  refine ⟨rfl, ?_, rfl, rfl, rfl, rfl⟩
  simp [led_pin, led_bit_after_clear]

/-- C10: for every state with the LED off and for each of the bytes `'+'` and
`'-'`, the callback sets the LED flag to on, drives the LED pin high, registers
`timer_cb` for the tick notification and sends exactly `"OK\n"`, at every table
index. In particular, from any state, `'0'` followed by `'+'` or `'-'` ends
with the notification registered. -/
theorem rate_byte_switches_on (rom : Int → Int) (s : State) (ch : Nat)
    (hch : ch = CH_PLUS ∨ ch = CH_MINUS) :
    (s.g_state_led = STATE_LED_OFF →
      (uart_rx_cb rom s ch).g_state_led = STATE_LED_ON ∧
      led_pin (uart_rx_cb rom s ch) = true ∧
      (uart_rx_cb rom s ch).notification = some GptCallback.timer_cb ∧
      (uart_rx_cb rom s ch).uart_tx = s.uart_tx ++ [CH_O, CH_K, CH_LF]) ∧
    (uart_rx_cb rom (uart_rx_cb rom s CH_ZERO) ch).notification = some GptCallback.timer_cb := by
  have htx : (uart_rx_cb rom s ch).uart_tx = s.uart_tx ++ [CH_O, CH_K, CH_LF] := by
    rw [tx_uart_rx_cb]
    rcases hch with h | h <;> simp [h, REPLY_OK]
  constructor
  · intro hoff
    obtain ⟨e1, e2, e3⟩ := rx_rate_when_off rom s ch hch hoff
    refine ⟨e1, ?_, e3, htx⟩
    simp [led_pin, e2, led_bit_after_set]
  · have hoff : (uart_rx_cb rom s CH_ZERO).g_state_led = STATE_LED_OFF := by rw [rx_zero]
    exact (rx_rate_when_off rom (uart_rx_cb rom s CH_ZERO) ch hch hoff).2.2

/-- C10 at the switched-off state with index 0 (a saturated end) and the byte
`'-'`. -/
theorem rate_byte_switches_on_witness :
    (CH_MINUS = CH_PLUS ∨ CH_MINUS = CH_MINUS) ∧ switched_off.g_state_led = STATE_LED_OFF ∧
    switched_off.g_idx = 0 ∧
    (uart_rx_cb rom0 switched_off CH_MINUS).g_state_led = STATE_LED_ON ∧
    led_pin (uart_rx_cb rom0 switched_off CH_MINUS) = true ∧
    (uart_rx_cb rom0 switched_off CH_MINUS).notification = some GptCallback.timer_cb ∧
    (uart_rx_cb rom0 switched_off CH_MINUS).uart_tx = switched_off.uart_tx ++ [CH_O, CH_K, CH_LF] :=
  ⟨by decide, by decide, by decide,
    (rate_byte_switches_on rom0 switched_off CH_MINUS (by decide)).1 (by decide)⟩

/-- C11: for every state, two `'0'` bytes in a row each send exactly `"OK\n"`,
and the countdown, the period, the table index, the LED flag, the output port
(hence the LED pin) and the notification registration after the second `'0'`
are those after the first. -/
theorem zero_twice (rom : Int → Int) (s : State) :
    (uart_rx_cb rom s CH_ZERO).uart_tx = s.uart_tx ++ [CH_O, CH_K, CH_LF] ∧
    (uart_rx_cb rom (uart_rx_cb rom s CH_ZERO) CH_ZERO).uart_tx =
      (uart_rx_cb rom s CH_ZERO).uart_tx ++ [CH_O, CH_K, CH_LF] ∧
    (uart_rx_cb rom (uart_rx_cb rom s CH_ZERO) CH_ZERO).g_ctr =
      (uart_rx_cb rom s CH_ZERO).g_ctr ∧
    (uart_rx_cb rom (uart_rx_cb rom s CH_ZERO) CH_ZERO).g_set_period =
      (uart_rx_cb rom s CH_ZERO).g_set_period ∧
    (uart_rx_cb rom (uart_rx_cb rom s CH_ZERO) CH_ZERO).g_idx =
      (uart_rx_cb rom s CH_ZERO).g_idx ∧
    (uart_rx_cb rom (uart_rx_cb rom s CH_ZERO) CH_ZERO).g_state_led =
      (uart_rx_cb rom s CH_ZERO).g_state_led ∧
    (uart_rx_cb rom (uart_rx_cb rom s CH_ZERO) CH_ZERO).port =
      (uart_rx_cb rom s CH_ZERO).port ∧
    led_pin (uart_rx_cb rom (uart_rx_cb rom s CH_ZERO) CH_ZERO) =
      led_pin (uart_rx_cb rom s CH_ZERO) ∧
    (uart_rx_cb rom (uart_rx_cb rom s CH_ZERO) CH_ZERO).notification =
      (uart_rx_cb rom s CH_ZERO).notification := by
  have hport : (uart_rx_cb rom (uart_rx_cb rom s CH_ZERO) CH_ZERO).port =
      (uart_rx_cb rom s CH_ZERO).port := by
    rw [rx_zero rom (uart_rx_cb rom s CH_ZERO), rx_zero rom s]
    exact gpio_clear_group_idem s.port
  refine ⟨?_, ?_, ?_, ?_, ?_, ?_, hport, ?_, ?_⟩
  · rw [rx_zero]; rfl
  · rw [rx_zero rom (uart_rx_cb rom s CH_ZERO)]; rfl
  · rw [rx_zero rom (uart_rx_cb rom s CH_ZERO)]
  · rw [rx_zero rom (uart_rx_cb rom s CH_ZERO)]
  · rw [rx_zero rom (uart_rx_cb rom s CH_ZERO)]
  · rw [rx_zero rom (uart_rx_cb rom s CH_ZERO), rx_zero rom s]
  · unfold led_pin; rw [hport]
  · rw [rx_zero rom (uart_rx_cb rom s CH_ZERO), rx_zero rom s]

/-- C12: for every state, `timer_cb` decrements the countdown by one (a 16-bit
decrement: the value is `g_ctr - 1` wherever that is an `int16_t`, that is for
`-32768 < g_ctr ≤ 32767`); if the decremented value is `≤ 0` it toggles the LED
pin and sets the countdown to the period; otherwise the port is unchanged and
the countdown is the decremented value. In both cases the period, the table
index, the LED flag and the registration are unchanged. -/
theorem tick_effect (s : State) :
    (int16 (s.g_ctr - 1) ≤ 0 →
      (timer_cb s).port = gpio_toggle_group s.port MSK_LED ∧
      led_pin (timer_cb s) = !led_pin s ∧
      (timer_cb s).g_ctr = s.g_set_period) ∧
    (0 < int16 (s.g_ctr - 1) →
      (timer_cb s).port = s.port ∧
      led_pin (timer_cb s) = led_pin s ∧
      (timer_cb s).g_ctr = int16 (s.g_ctr - 1)) ∧
    (-32768 < s.g_ctr → s.g_ctr ≤ 32767 → int16 (s.g_ctr - 1) = s.g_ctr - 1) ∧
    (timer_cb s).g_set_period = s.g_set_period ∧
    (timer_cb s).g_idx = s.g_idx ∧
    (timer_cb s).g_state_led = s.g_state_led ∧
    (timer_cb s).notification = s.notification := by
  obtain ⟨f1, f2, f3, f4, _⟩ := timer_cb_frame s
  refine ⟨fun hz => ?_, fun hz => ?_, fun hlo hhi => ?_, f1, f2, f3, f4⟩
  · have ht := (tick_toggles_iff s).2 hz
    refine ⟨by rw [timer_cb_reload s hz], ?_, by rw [timer_cb_reload s hz]⟩
    unfold tick_toggles at ht
    cases hb : led_pin s <;> simp_all
  · rw [timer_cb_count s hz]
    exact ⟨rfl, rfl, rfl⟩
  · unfold int16; omega

/-- C12 at the freshly reloaded state (countdown 16000): the decremented value
is 15999, the port is unchanged and the countdown becomes 15999. -/
theorem tick_effect_witness :
    int16 (freshly_reloaded.g_ctr - 1) = 15999 ∧
    (timer_cb freshly_reloaded).port = freshly_reloaded.port ∧
    led_pin (timer_cb freshly_reloaded) = led_pin freshly_reloaded ∧
    (timer_cb freshly_reloaded).g_ctr = int16 (freshly_reloaded.g_ctr - 1) :=
  ⟨by decide, (tick_effect freshly_reloaded).2.1 (by decide)⟩

/-- C13: from the state that `init_timer` establishes (index 0, period 16000,
LED flag on), five `'+'` bytes lead to index 5 and period 2000; two more lead
to index 6 and period 1600, the last of them changing neither the index nor
the period (they are 6 and 1600 already after the sixth); and each of the
seven `'+'` sends exactly `"OK\n"`. -/
theorem end_to_end_plus (rom : Int → Int) (s0 : State) :
    (init_timer rom s0).g_idx = 0 ∧
    (init_timer rom s0).g_set_period = 16000 ∧
    (init_timer rom s0).g_state_led = STATE_LED_ON ∧
    (run rom (init_timer rom s0) (presses CH_PLUS 5)).g_idx = 5 ∧
    (run rom (init_timer rom s0) (presses CH_PLUS 5)).g_set_period = 2000 ∧
    (run rom (init_timer rom s0) (presses CH_PLUS 7)).g_idx = 6 ∧
    (run rom (init_timer rom s0) (presses CH_PLUS 7)).g_set_period = 1600 ∧
    (run rom (init_timer rom s0) (presses CH_PLUS 7)).g_idx =
      (run rom (init_timer rom s0) (presses CH_PLUS 6)).g_idx ∧
    (run rom (init_timer rom s0) (presses CH_PLUS 7)).g_set_period =
      (run rom (init_timer rom s0) (presses CH_PLUS 6)).g_set_period ∧
    (∀ k, k < 7 →
      (run rom (init_timer rom s0) (presses CH_PLUS (k + 1))).uart_tx =
        (run rom (init_timer rom s0) (presses CH_PLUS k)).uart_tx ++ [CH_O, CH_K, CH_LF]) := by
  have hinv := inv_init_timer rom s0
  have hidx : (init_timer rom s0).g_idx = 0 := rfl
  have hat : ∀ n : Nat, (run rom (init_timer rom s0) (presses CH_PLUS n)).g_idx =
      min (((0 : Int)) + n) 6 := fun n => by
    rw [idx_after_plus_presses rom (init_timer rom s0) (by omega) (by omega) n, hidx]
  have hrun : ∀ n : Nat, Inv (run rom (init_timer rom s0) (presses CH_PLUS n)) :=
    fun n => inv_run rom (presses CH_PLUS n) (init_timer rom s0) hinv
  have i5 : (run rom (init_timer rom s0) (presses CH_PLUS 5)).g_idx = ((5 : Nat) : Int) := by
    rw [hat 5]; decide
  have i6 : (run rom (init_timer rom s0) (presses CH_PLUS 6)).g_idx = ((6 : Nat) : Int) := by
    rw [hat 6]; decide
  have i7 : (run rom (init_timer rom s0) (presses CH_PLUS 7)).g_idx = ((6 : Nat) : Int) := by
    rw [hat 7]; decide
  have p5 := period_of_idx _ (hrun 5) 5 2000 i5 rfl
  have p6 := period_of_idx _ (hrun 6) 6 1600 i6 rfl
  have p7 := period_of_idx _ (hrun 7) 6 1600 i7 rfl
  refine ⟨rfl, rfl, rfl, i5, p5, i7, p7, by rw [i7, i6], by rw [p7, p6], ?_⟩
  intro k _
  rw [run_presses_succ, tx_uart_rx_cb]
  simp [REPLY_OK]

/-- C14, as stated, fails right after `init_timer`: after `'0'`, `'z'`, `'+'`
the table index is 1, not the 0 it was before the `'0'`. -/
theorem zero_z_plus_moves_index :
    (init_timer rom0 boot).g_idx = 0 ∧
    (run rom0 (init_timer rom0 boot)
      [Event.byte CH_ZERO, Event.byte CH_LOWER_Z, Event.byte CH_PLUS]).g_idx = 1 ∧
    (run rom0 (init_timer rom0 boot)
      [Event.byte CH_ZERO, Event.byte CH_LOWER_Z, Event.byte CH_PLUS]).g_idx ≠
      (init_timer rom0 boot).g_idx := by
  decide

/-- C14, amended: in every state reached after `init_timer`, the bytes `'0'`,
`'z'`, `'+'` produce the replies `"OK\n"`, `"?\n"`, `"OK\n"` in that order, and
the final state has the LED flag on and `timer_cb` registered, with the table
index one above the index the state had before the `'0'`, or 6 if it was 6. -/
theorem zero_z_plus (rom : Int → Int) (s0 : State) (evs : List Event) :
    (run rom (run rom (init_timer rom s0) evs)
      [Event.byte CH_ZERO, Event.byte CH_LOWER_Z, Event.byte CH_PLUS]).uart_tx =
      (run rom (init_timer rom s0) evs).uart_tx ++
        [CH_O, CH_K, CH_LF] ++ [CH_QUESTION, CH_LF] ++ [CH_O, CH_K, CH_LF] ∧
    (run rom (run rom (init_timer rom s0) evs)
      [Event.byte CH_ZERO, Event.byte CH_LOWER_Z, Event.byte CH_PLUS]).g_state_led =
      STATE_LED_ON ∧
    (run rom (run rom (init_timer rom s0) evs)
      [Event.byte CH_ZERO, Event.byte CH_LOWER_Z, Event.byte CH_PLUS]).notification =
      some GptCallback.timer_cb ∧
    (run rom (run rom (init_timer rom s0) evs)
      [Event.byte CH_ZERO, Event.byte CH_LOWER_Z, Event.byte CH_PLUS]).g_idx =
      min ((run rom (init_timer rom s0) evs).g_idx + 1) 6 := by
  generalize hs : run rom (init_timer rom s0) evs = s
  have hinv : Inv s := by
    rw [← hs]; exact inv_run rom evs (init_timer rom s0) (inv_init_timer rom s0)
  have hrun : run rom s [Event.byte CH_ZERO, Event.byte CH_LOWER_Z, Event.byte CH_PLUS] =
      uart_rx_cb rom (uart_rx_cb rom (uart_rx_cb rom s CH_ZERO) CH_LOWER_Z) CH_PLUS := rfl
  rw [hrun]
  obtain ⟨h0, h6, _⟩ := hinv
  have a_idx : (uart_rx_cb rom s CH_ZERO).g_idx = s.g_idx := by rw [rx_zero]
  have a_led : (uart_rx_cb rom s CH_ZERO).g_state_led = STATE_LED_OFF := by rw [rx_zero]
  have hb := rx_other rom (uart_rx_cb rom s CH_ZERO) CH_LOWER_Z
    (by decide) (by decide) (by decide)
  have b_idx : (uart_rx_cb rom (uart_rx_cb rom s CH_ZERO) CH_LOWER_Z).g_idx = s.g_idx := by
    rw [hb]; exact a_idx
  have b_led : (uart_rx_cb rom (uart_rx_cb rom s CH_ZERO) CH_LOWER_Z).g_state_led =
      STATE_LED_OFF := by
    rw [hb]; exact a_led
  obtain ⟨e1, _, e3⟩ := rx_rate_when_off rom
    (uart_rx_cb rom (uart_rx_cb rom s CH_ZERO) CH_LOWER_Z) CH_PLUS (Or.inl rfl) b_led
  refine ⟨?_, e1, e3, ?_⟩
  · rw [tx_uart_rx_cb, tx_uart_rx_cb, tx_uart_rx_cb]
    simp [REPLY_OK, REPLY_ERR, CH_PLUS, CH_MINUS, CH_ZERO, CH_LOWER_Z, CH_LF, CH_CR]
  · by_cases hlt : s.g_idx < 6
    · rw [(plus_below_last rom _ (by rw [b_idx]; exact h0) (by rw [b_idx]; exact hlt)).1, b_idx]
      omega
    · rw [(plus_at_last rom _ (by rw [b_idx]; omega)).1, b_idx]
      omega

/-- C15: reactivation at a saturated end does not reseed the timing state. For
every state with the LED off, at index 0 the byte `'-'`, and at index 6 the
byte `'+'`, sets the LED flag on, drives the LED pin high and registers
`timer_cb`, and leaves the countdown and the period exactly as they were. -/
theorem reactivation_keeps_timing (rom : Int → Int) (s : State)
    (hoff : s.g_state_led = STATE_LED_OFF) :
    (s.g_idx = 0 →
      (uart_rx_cb rom s CH_MINUS).g_state_led = STATE_LED_ON ∧
      led_pin (uart_rx_cb rom s CH_MINUS) = true ∧
      (uart_rx_cb rom s CH_MINUS).notification = some GptCallback.timer_cb ∧
      (uart_rx_cb rom s CH_MINUS).g_ctr = s.g_ctr ∧
      (uart_rx_cb rom s CH_MINUS).g_set_period = s.g_set_period) ∧
    (s.g_idx = 6 →
      (uart_rx_cb rom s CH_PLUS).g_state_led = STATE_LED_ON ∧
      led_pin (uart_rx_cb rom s CH_PLUS) = true ∧
      (uart_rx_cb rom s CH_PLUS).notification = some GptCallback.timer_cb ∧
      (uart_rx_cb rom s CH_PLUS).g_ctr = s.g_ctr ∧
      (uart_rx_cb rom s CH_PLUS).g_set_period = s.g_set_period) := by
  constructor
  · intro h
    obtain ⟨e1, e2, e3⟩ := rx_rate_when_off rom s CH_MINUS (Or.inr rfl) hoff
    obtain ⟨_, f2, f3⟩ := minus_at_first rom s h
    refine ⟨e1, ?_, e3, f3, f2⟩
    simp [led_pin, e2, led_bit_after_set]
  · intro h
    obtain ⟨e1, e2, e3⟩ := rx_rate_when_off rom s CH_PLUS (Or.inl rfl) hoff
    obtain ⟨_, f2, f3⟩ := plus_at_last rom s h
    refine ⟨e1, ?_, e3, f3, f2⟩
    simp [led_pin, e2, led_bit_after_set]

/-- C15 at the two switched-off states of the examples: index 0 with `'-'`,
index 6 with `'+'`. -/
theorem reactivation_keeps_timing_witness :
    (switched_off.g_state_led = STATE_LED_OFF ∧ switched_off.g_idx = 0 ∧
      (uart_rx_cb rom0 switched_off CH_MINUS).g_state_led = STATE_LED_ON ∧
      led_pin (uart_rx_cb rom0 switched_off CH_MINUS) = true ∧
      (uart_rx_cb rom0 switched_off CH_MINUS).notification = some GptCallback.timer_cb ∧
      (uart_rx_cb rom0 switched_off CH_MINUS).g_ctr = switched_off.g_ctr ∧
      (uart_rx_cb rom0 switched_off CH_MINUS).g_set_period = switched_off.g_set_period) ∧
    (switched_off_at_last.g_state_led = STATE_LED_OFF ∧ switched_off_at_last.g_idx = 6 ∧
      (uart_rx_cb rom0 switched_off_at_last CH_PLUS).g_state_led = STATE_LED_ON ∧
      led_pin (uart_rx_cb rom0 switched_off_at_last CH_PLUS) = true ∧
      (uart_rx_cb rom0 switched_off_at_last CH_PLUS).notification =
        some GptCallback.timer_cb ∧
      (uart_rx_cb rom0 switched_off_at_last CH_PLUS).g_ctr = switched_off_at_last.g_ctr ∧
      (uart_rx_cb rom0 switched_off_at_last CH_PLUS).g_set_period =
        switched_off_at_last.g_set_period) :=
  ⟨⟨by decide, by decide,
      (reactivation_keeps_timing rom0 switched_off (by decide)).1 (by decide)⟩,
   ⟨by decide, by decide,
      (reactivation_keeps_timing rom0 switched_off_at_last (by decide)).2 (by decide)⟩⟩

/-- C16: the rate table has exactly 7 entries, every entry is positive, and
each entry is strictly smaller than the one before it. Consequently, for every
state whose period is the table entry at its index, `'+'` below index 6
strictly decreases the period and `'-'` above index 0 strictly increases it. -/
theorem rate_table_decreasing (rom : Int → Int) (s : State) (h0 : 0 ≤ s.g_idx)
    (hper : g_possible_periods[s.g_idx.toNat]? = some s.g_set_period) :
    g_possible_periods.length = 7 ∧
    NBR_PERIODS = 7 ∧
    (∀ x ∈ g_possible_periods, 0 < x) ∧
    (∀ i : Nat, i < 6 → g_possible_periods.getD (i + 1) 0 < g_possible_periods.getD i 0) ∧
    (s.g_idx < 6 → (uart_rx_cb rom s CH_PLUS).g_set_period < s.g_set_period) ∧
    (0 < s.g_idx → s.g_set_period < (uart_rx_cb rom s CH_MINUS).g_set_period) := by
  refine ⟨rfl, rfl, by decide, by decide, fun hlt => ?_, fun hgt => ?_⟩
  · rw [(plus_below_last rom s h0 hlt).2.1]
    exact next_entry_smaller rom s.g_idx s.g_set_period h0 hlt hper
  · have h6 := idx_le_of_lookup s.g_idx s.g_set_period hper
    rw [(minus_above_first rom s hgt h6).2.1]
    exact previous_entry_larger rom s.g_idx s.g_set_period hgt h6 hper

/-- C16 at the state with index 2 and period 5333: `'+'` gives 4000, `'-'`
gives 8000. -/
theorem rate_table_decreasing_witness :
    ((0 : Int) ≤ at_index_two.g_idx ∧
      g_possible_periods[at_index_two.g_idx.toNat]? = some at_index_two.g_set_period) ∧
    (uart_rx_cb rom0 at_index_two CH_PLUS).g_set_period < at_index_two.g_set_period ∧
    at_index_two.g_set_period < (uart_rx_cb rom0 at_index_two CH_MINUS).g_set_period :=
  ⟨⟨by decide, by decide⟩,
    (rate_table_decreasing rom0 at_index_two (by decide) (by decide)).2.2.2.2.1 (by decide),
    (rate_table_decreasing rom0 at_index_two (by decide) (by decide)).2.2.2.2.2 (by decide)⟩

/-- C17: blink periodicity. For every state with `timer_cb` registered, whose
period is `p > 0` (an `int16_t` value) and whose countdown is `p`, and for
every `k`, the first `k` consecutive ticks toggle the LED pin exactly `k / p`
times, tick number `j` toggling it exactly when `j` is a multiple of `p`, and
they leave the countdown at `p - k % p`. -/
theorem blink_periodicity (rom : Int → Int) (s : State) (p : Nat)
    (_hreg : s.notification = some GptCallback.timer_cb)
    (hp : 0 < p) (hp16 : p ≤ 32767)
    (hper : s.g_set_period = (p : Int)) (hctr : s.g_ctr = (p : Int)) (k : Nat) :
    toggle_count rom s k = k / p ∧
    (∀ j, j < k → (tick_toggles (run rom s (ticks j)) = true ↔ p ∣ j + 1)) ∧
    (run rom s (ticks k)).g_ctr = (p : Int) - ((k % p : Nat) : Int) :=
  ⟨toggle_count_after_ticks rom s p hp hp16 hper hctr k,
   fun j _ => tick_toggles_after_ticks rom s p hp hp16 hper hctr j,
   (ctr_after_ticks rom s p hp hp16 hper hctr k).1⟩

/-- C17 at the freshly reloaded state with period 16000, for 40000 ticks. -/
theorem blink_periodicity_witness :
    (freshly_reloaded.notification = some GptCallback.timer_cb ∧
      0 < 16000 ∧ 16000 ≤ 32767 ∧
      freshly_reloaded.g_set_period = ((16000 : Nat) : Int) ∧
      freshly_reloaded.g_ctr = ((16000 : Nat) : Int)) ∧
    (toggle_count rom0 freshly_reloaded 40000 = 40000 / 16000 ∧
      (∀ j, j < 40000 →
        (tick_toggles (run rom0 freshly_reloaded (ticks j)) = true ↔ 16000 ∣ j + 1)) ∧
      (run rom0 freshly_reloaded (ticks 40000)).g_ctr =
        ((16000 : Nat) : Int) - ((40000 % 16000 : Nat) : Int)) :=
  ⟨⟨by decide, by decide, by decide, by decide, by decide⟩,
    blink_periodicity rom0 freshly_reloaded 16000 (by decide) (by decide) (by decide)
      (by decide) (by decide) 40000⟩

/-- C18: from program start (countdown zero, then `init_timer`) and after any
finite sequence of `uart_rx_cb` and `timer_cb` calls,
`0 ≤ g_ctr ≤ g_set_period ≤ 16000`; hence the 16-bit decrement of the next tick
does not wrap (it is the exact difference, and at least -1); and once a tick
has run, the countdown is at least 1. -/
theorem countdown_within_period (rom : Int → Int) (s0 : State) (hz : s0.g_ctr = 0)
    (evs : List Event) :
    0 ≤ (run rom (init_timer rom s0) evs).g_ctr ∧
    (run rom (init_timer rom s0) evs).g_ctr ≤ (run rom (init_timer rom s0) evs).g_set_period ∧
    (run rom (init_timer rom s0) evs).g_set_period ≤ 16000 ∧
    int16 ((run rom (init_timer rom s0) evs).g_ctr - 1) =
      (run rom (init_timer rom s0) evs).g_ctr - 1 ∧
    -1 ≤ int16 ((run rom (init_timer rom s0) evs).g_ctr - 1) ∧
    (Event.tick ∈ evs → 1 ≤ (run rom (init_timer rom s0) evs).g_ctr) := by
  obtain ⟨⟨hi, h0, h1⟩, hpos⟩ :=
    ctrinv_run rom evs (init_timer rom s0) (ctrinv_init_timer rom s0 hz)
  have hb := inv_period_bounds _ hi
  have hd : int16 ((run rom (init_timer rom s0) evs).g_ctr - 1) =
      (run rom (init_timer rom s0) evs).g_ctr - 1 := by
    unfold int16; omega
  exact ⟨h0, h1, hb.2, hd, by omega, fun ht => hpos (Or.inr ht)⟩

/-- C18 from the zeroed globals, for a tick followed by a `'+'`. -/
theorem countdown_within_period_witness :
    boot.g_ctr = 0 ∧ Event.tick ∈ [Event.tick, Event.byte CH_PLUS] ∧
    1 ≤ (run rom0 (init_timer rom0 boot) [Event.tick, Event.byte CH_PLUS]).g_ctr ∧
    (run rom0 (init_timer rom0 boot) [Event.tick, Event.byte CH_PLUS]).g_ctr ≤
      (run rom0 (init_timer rom0 boot) [Event.tick, Event.byte CH_PLUS]).g_set_period :=
  ⟨by decide, by decide,
    (countdown_within_period rom0 boot (by decide)
      [Event.tick, Event.byte CH_PLUS]).2.2.2.2.2 (by decide),
    (countdown_within_period rom0 boot (by decide) [Event.tick, Event.byte CH_PLUS]).2.1⟩

/-- C19: in every state reached from the state that `init_timer` establishes
by any finite sequence of `uart_rx_cb` and `timer_cb` calls, the LED flag is on
if and only if `timer_cb` is registered for the tick notification; hence a
timer overflow changes the LED pin only while the flag is on. -/
theorem led_flag_iff_registered (rom : Int → Int) (s0 : State) (evs : List Event) :
    ((run rom (init_timer rom s0) evs).g_state_led = STATE_LED_ON ↔
      (run rom (init_timer rom s0) evs).notification = some GptCallback.timer_cb) ∧
    ((run rom (init_timer rom s0) evs).g_state_led = STATE_LED_ON ∨
      (run rom (init_timer rom s0) evs).g_state_led = STATE_LED_OFF) ∧
    (led_pin (gpt_overflow (run rom (init_timer rom s0) evs)) ≠
        led_pin (run rom (init_timer rom s0) evs) →
      (run rom (init_timer rom s0) evs).g_state_led = STATE_LED_ON) := by
  have h := ledinv_run rom evs (init_timer rom s0) (ledinv_init_timer rom s0)
  have hne : STATE_LED_OFF ≠ STATE_LED_ON := by decide
  rcases h with ⟨h1, h2⟩ | ⟨h1, h2⟩
  · exact ⟨⟨fun _ => h2, fun _ => h1⟩, Or.inl h1, fun _ => h1⟩
  · refine ⟨⟨fun hc => ?_, fun hc => ?_⟩, Or.inr h1, fun hc => ?_⟩
    · rw [h1] at hc; exact absurd hc hne
    · rw [h2] at hc; exact absurd hc (by simp)
    · exfalso
      apply hc
      unfold gpt_overflow
      rw [h2]

/-- C20: round trip of the rate bytes. For every state with the LED flag on
whose period is the table entry at its index: below index 6, `'+'` followed by
`'-'` restores the index and the period, leaves the LED flag, the output port
(hence the LED pin) and the registration as they were, and sets the countdown
to the period; above index 0, `'-'` followed by `'+'` does the same. -/
theorem rate_round_trip (rom : Int → Int) (s : State)
    (hon : s.g_state_led = STATE_LED_ON) (h0 : 0 ≤ s.g_idx)
    (hper : g_possible_periods[s.g_idx.toNat]? = some s.g_set_period) :
    (s.g_idx < 6 →
      (uart_rx_cb rom (uart_rx_cb rom s CH_PLUS) CH_MINUS).g_idx = s.g_idx ∧
      (uart_rx_cb rom (uart_rx_cb rom s CH_PLUS) CH_MINUS).g_set_period = s.g_set_period ∧
      (uart_rx_cb rom (uart_rx_cb rom s CH_PLUS) CH_MINUS).g_state_led = s.g_state_led ∧
      (uart_rx_cb rom (uart_rx_cb rom s CH_PLUS) CH_MINUS).port = s.port ∧
      led_pin (uart_rx_cb rom (uart_rx_cb rom s CH_PLUS) CH_MINUS) = led_pin s ∧
      (uart_rx_cb rom (uart_rx_cb rom s CH_PLUS) CH_MINUS).notification = s.notification ∧
      (uart_rx_cb rom (uart_rx_cb rom s CH_PLUS) CH_MINUS).g_ctr = s.g_set_period) ∧
    (0 < s.g_idx →
      (uart_rx_cb rom (uart_rx_cb rom s CH_MINUS) CH_PLUS).g_idx = s.g_idx ∧
      (uart_rx_cb rom (uart_rx_cb rom s CH_MINUS) CH_PLUS).g_set_period = s.g_set_period ∧
      (uart_rx_cb rom (uart_rx_cb rom s CH_MINUS) CH_PLUS).g_state_led = s.g_state_led ∧
      (uart_rx_cb rom (uart_rx_cb rom s CH_MINUS) CH_PLUS).port = s.port ∧
      led_pin (uart_rx_cb rom (uart_rx_cb rom s CH_MINUS) CH_PLUS) = led_pin s ∧
      (uart_rx_cb rom (uart_rx_cb rom s CH_MINUS) CH_PLUS).notification = s.notification ∧
      (uart_rx_cb rom (uart_rx_cb rom s CH_MINUS) CH_PLUS).g_ctr = s.g_set_period) := by
  have h6 := idx_le_of_lookup s.g_idx s.g_set_period hper
  have hback : int16 (pgm_read_word rom s.g_idx) = s.g_set_period := by
    have h := read_table_entry rom s.g_idx h0 h6
    rw [hper] at h
    exact (Option.some.inj h).symm
  have hnoff : s.g_state_led ≠ STATE_LED_OFF := by rw [hon]; decide
  constructor
  · intro hlt
    obtain ⟨a1, _, _⟩ := plus_below_last rom s h0 hlt
    obtain ⟨l1, l2, l3⟩ := rx_rate_when_on rom s CH_PLUS (Or.inl rfl) hnoff
    obtain ⟨b1, b2, b3⟩ := minus_above_first rom (uart_rx_cb rom s CH_PLUS)
      (by rw [a1]; omega) (by rw [a1]; omega)
    obtain ⟨m1, m2, m3⟩ := rx_rate_when_on rom (uart_rx_cb rom s CH_PLUS) CH_MINUS
      (Or.inr rfl) (by rw [l1]; exact hnoff)
    have hi : (uart_rx_cb rom s CH_PLUS).g_idx - 1 = s.g_idx := by rw [a1]; omega
    rw [hi] at b1 b2 b3
    refine ⟨b1, by rw [b2, hback], by rw [m1, l1], by rw [m2, l2], ?_, by rw [m3, l3],
      by rw [b3, hback]⟩
    unfold led_pin; rw [m2, l2]
  · intro hgt
    obtain ⟨a1, _, _⟩ := minus_above_first rom s hgt h6
    obtain ⟨l1, l2, l3⟩ := rx_rate_when_on rom s CH_MINUS (Or.inr rfl) hnoff
    obtain ⟨b1, b2, b3⟩ := plus_below_last rom (uart_rx_cb rom s CH_MINUS)
      (by rw [a1]; omega) (by rw [a1]; omega)
    obtain ⟨m1, m2, m3⟩ := rx_rate_when_on rom (uart_rx_cb rom s CH_MINUS) CH_PLUS
      (Or.inl rfl) (by rw [l1]; exact hnoff)
    have hi : (uart_rx_cb rom s CH_MINUS).g_idx + 1 = s.g_idx := by rw [a1]; omega
    rw [hi] at b1 b2 b3
    refine ⟨b1, by rw [b2, hback], by rw [m1, l1], by rw [m2, l2], ?_, by rw [m3, l3],
      by rw [b3, hback]⟩
    unfold led_pin; rw [m2, l2]

/-- C20 at the state with index 2 and period 5333, in both directions. -/
theorem rate_round_trip_witness :
    (at_index_two.g_state_led = STATE_LED_ON ∧ (0 : Int) ≤ at_index_two.g_idx ∧
      g_possible_periods[at_index_two.g_idx.toNat]? = some at_index_two.g_set_period) ∧
    ((uart_rx_cb rom0 (uart_rx_cb rom0 at_index_two CH_PLUS) CH_MINUS).g_idx =
        at_index_two.g_idx ∧
      (uart_rx_cb rom0 (uart_rx_cb rom0 at_index_two CH_PLUS) CH_MINUS).g_set_period =
        at_index_two.g_set_period) ∧
    ((uart_rx_cb rom0 (uart_rx_cb rom0 at_index_two CH_MINUS) CH_PLUS).g_idx =
        at_index_two.g_idx ∧
      (uart_rx_cb rom0 (uart_rx_cb rom0 at_index_two CH_MINUS) CH_PLUS).g_set_period =
        at_index_two.g_set_period) :=
  ⟨⟨by decide, by decide, by decide⟩,
    ⟨((rate_round_trip rom0 at_index_two (by decide) (by decide) (by decide)).1 (by decide)).1,
     ((rate_round_trip rom0 at_index_two (by decide) (by decide) (by decide)).1
        (by decide)).2.1⟩,
    ⟨((rate_round_trip rom0 at_index_two (by decide) (by decide) (by decide)).2 (by decide)).1,
     ((rate_round_trip rom0 at_index_two (by decide) (by decide) (by decide)).2
        (by decide)).2.1⟩⟩

end BlinkySerial
